import Mathlib

/-!
Shallow embedding of the physical-topology subsystem of the netbox repository
(`src/netbox/dcim/views.py`), with theorems checking the natural-language
specification against the code.

Python exceptions are embedded as `Option`/`Except` failures; Django ORM
record sets are embedded as explicit Lean lists of records; view functions
become pure state transformers.
-/

namespace Netbox

/-! ## NamePatternExpander (`expand_pattern`, views.py lines 34-57)

`EXPANSION_PATTERN = '\[(\d+-\d+)\]'` and

```python
def expand_pattern(string):
    lead, pattern, remnant = re.split(EXPANSION_PATTERN, string, maxsplit=1)
    x, y = pattern.split('-')
    for i in range(int(x), int(y) + 1):
        if remnant:
            for string in expand_pattern(remnant):
                yield "{0}{1}{2}".format(lead, i, string)
        else:
            yield "{0}{1}".format(lead, i)
```

`re.split(..., maxsplit=1)` with one capture group returns `[lead, inner, remnant]`
when the regex matches somewhere, and `[string]` when it does not; in the latter
case the 3-way unpacking raises `ValueError` (embedded as `none`).

The regex `\[(\d+-\d+)\]` matches, at the leftmost possible position, a literal
`[`, one or more digits, `-`, one or more digits, `]`.  Because every character
class after the opening bracket is disjoint from the character required next,
the greedy match never backtracks: at each `[` the match attempt is "maximal
digit run, `-`, maximal digit run, `]`", and on failure the scan resumes at the
next `[`.
-/

/-- Python `int` of a non-empty decimal digit string. -/
def digitsToNat (ds : List Char) : Nat :=
  ds.foldl (fun n c => n * 10 + (c.toNat - '0'.toNat)) 0

/-- Attempt to match `\d+-\d+\]` at the head of `cs` (the text following a `[`).
Returns the two parsed bounds and the text after the closing `]`. -/
def parseRange (cs : List Char) : Option (Nat × Nat × List Char) :=
  match cs.dropWhile Char.isDigit with
  | c1 :: r2 =>
    if (cs.takeWhile Char.isDigit).isEmpty then none
    else if c1 = '-' then
      match r2.dropWhile Char.isDigit with
      | c3 :: rest =>
        if (r2.takeWhile Char.isDigit).isEmpty then none
        else if c3 = ']' then
          some (digitsToNat (cs.takeWhile Char.isDigit), digitsToNat (r2.takeWhile Char.isDigit), rest)
        else none
      | [] => none
    else none
  | [] => none

/-- Leftmost match of `\[(\d+-\d+)\]` in `cs`: returns
`(lead, x, y, remnant)` as produced by `re.split(EXPANSION_PATTERN, s, maxsplit=1)`,
or `none` when the regex does not match. -/
def findToken : List Char → Option (List Char × Nat × Nat × List Char)
  | [] => none
  | c :: rest =>
    if c = '[' then
      match parseRange rest with
      | some (x, y, remnant) => some ([], x, y, remnant)
      | none => (findToken rest).map (fun t => (c :: t.1, t.2.1, t.2.2.1, t.2.2.2))
    else
      (findToken rest).map (fun t => (c :: t.1, t.2.1, t.2.2.1, t.2.2.2))

/-- The body of `expand_pattern`, on the character list of the input string.
`none` embeds an uncaught Python exception (the `ValueError` raised by the
3-way unpacking when the regex finds no range token in a string that the
recursion was asked to expand).  Faithful corner cases:
* when `range(int(x), int(y) + 1)` is empty (`x > y`) the loop body never
  runs, so nothing is yielded and the remnant is never expanded — the result
  is an empty list of names, not an error;
* when the range is non-empty and the remnant is a non-empty string without
  a further range token, the recursive call raises, so the whole expansion
  raises. -/
def expandP : Nat → List Char → Option (List String)
  | 0, _ => none
  | fuel + 1, cs =>
    match findToken cs with
    | none => none
    | some (lead, x, y, remnant) =>
      if remnant.isEmpty then
        some ((List.range' x (y + 1 - x)).map (fun i => lead.asString ++ toString i))
      else
        match expandP fuel remnant with
        | some tails =>
          some ((List.range' x (y + 1 - x)).flatMap
            (fun i => tails.map (fun t => lead.asString ++ toString i ++ t)))
        | none => if x ≤ y then none else some []

/-- `expand_pattern` from views.py lines 44-57 (the generator, fully forced).
`none` embeds an uncaught exception, `some names` the yielded sequence. -/
def expand_pattern (s : String) : Option (List String) :=
  expandP (s.data.length + 1) s.data

/-- Modelled from the spec: the caller that feeds `expand_pattern` (the
`ExpandableNameField` form field in `utilities/forms.py`) is not under
`src/`.  Per the spec (§4.1), "If the pattern contains no bracket token, the
expander yields the single literal pattern unchanged"; when the pattern does
contain a bracket token, expansion is delegated to `expand_pattern`. -/
def expand (s : String) : Option (List String) :=
  if (findToken s.data).isSome then expand_pattern s else some [s]

/-- The chain of range tokens of a pattern: repeatedly take the leftmost
range token of the remnant, succeeding only when the chain ends with an
empty remnant (no trailing literal text after the final range).  This is the
decomposition that `expand_pattern`'s recursion itself performs. -/
def segChain : Nat → List Char → Option (List (List Char × Nat × Nat))
  | 0, _ => none
  | fuel + 1, cs =>
    match findToken cs with
    | none => none
    | some (lead, x, y, remnant) =>
      if remnant.isEmpty then some [(lead, x, y)]
      else (segChain fuel remnant).map (fun segs => (lead, x, y) :: segs)

/-- The range-token decomposition of a pattern string (see `segChain`). -/
def segments (s : String) : Option (List (List Char × Nat × Nat)) :=
  segChain (s.data.length + 1) s.data

/-- The names denoted by a chain of `(lead, start, end)` segments: the
outermost (leftmost) range varies slowest, the innermost fastest, and each
integer of `[start, end]` is substituted in place of its bracket token. -/
def buildNames : List (List Char × Nat × Nat) → List String
  | [] => [""]
  | (lead, x, y) :: segs =>
    (List.range' x (y + 1 - x)).flatMap
      (fun i => (buildNames segs).map (fun t => lead.asString ++ toString i ++ t))

/-! ## ComponentProvisioner (`DeviceBulkAddComponentView.post`, views.py lines 695-757)

The same build-validate-collect-commit loop appears in `consoleport_add`
(lines 795-831), `consoleserverport_add`, `powerport_add`, `poweroutlet_add`,
`interface_add`, `devicebay_add` and `ComponentTemplateCreateView.post`
(lines 362-408): every candidate of the batch is validated, each failure adds
a form error, and only `if not form.errors` does `bulk_create` run.
-/

/-- A stored component record: owning device and name (the fields the
provisioning loop manipulates). -/
structure Component where
  device : Nat
  name : String
deriving DecidableEq, BEq, Repr

/-- Modelled from the spec: the per-candidate model-form validation
(`self.model_form(component_data).is_valid()`; the form classes live in
`dcim/forms.py`, which is not under `src/`).  Per the spec (§4.2, §3) and the
views' own error messages ("Duplicate ... name for this device"), a candidate
is valid when its name does not collide with an existing component of the
same device.  The form is constructed against the stored records only:
components staged earlier in the same batch (`new_components`, unsaved) are
not visible to it. -/
def formValid (db : List Component) (d : Nat) (n : String) : Bool :=
  db.all (fun c => !(c.device == d && c.name == n))

/-- Inner loop of `DeviceBulkAddComponentView.post` for one device: for each
expanded name, build the candidate and validate it; a valid candidate is
appended to `new_components`, an invalid one adds an accumulated form error —
never short-circuiting. -/
def addNamesForDevice (db : List Component) (d : Nat) :
    List String → List Component × List (Nat × String)
  | [] => ([], [])
  | n :: ns =>
    let rest := addNamesForDevice db d ns
    if formValid db d n then (⟨d, n⟩ :: rest.1, rest.2)
    else (rest.1, (d, n) :: rest.2)

/-- Outer loop of `DeviceBulkAddComponentView.post` over the selected
devices. -/
def addComponentsLoop (db : List Component) :
    List Nat → List String → List Component × List (Nat × String)
  | [], _ => ([], [])
  | d :: ds, names =>
    let here := addNamesForDevice db d names
    let rest := addComponentsLoop db ds names
    (here.1 ++ rest.1, here.2 ++ rest.2)

/-- Commit step of `DeviceBulkAddComponentView.post`: when the accumulated
error list is empty, `bulk_create` persists every staged component; otherwise
nothing is written and the errors are reported.  Returns the resulting stored
records together with the error list. -/
def bulkAddComponents (db : List Component) (devices : List Nat) (names : List String) :
    List Component × List (Nat × String) :=
  let r := addComponentsLoop db devices names
  if r.2.isEmpty then (db ++ r.1, []) else (db, r.2)

/-! ## ConnectionGraph — console family
(`consoleserverport_connect` views.py lines 961-988, `consoleport_connect`
lines 834-861, `consoleport_disconnect` lines 864-890,
`consoleserverport_disconnect` lines 991-1018)

The console connection is stored as one directional reference on the
dependent side: `ConsolePort.cs_port` points at a `ConsoleServerPort`, with a
`connection_status` tag; the server port's peer is the ORM reverse relation
`connected_console` (a lookup of the console port pointing at it).  A state
is the list of stored `ConsolePort` records; server ports are plain ids.
-/

inductive ConnStatus
  | planned
  | connected
deriving DecidableEq, Repr

/-- A stored `ConsolePort` record: id, nullable reference to the connected
console server port, nullable connection status. -/
structure CPort where
  id : Nat
  cs_port : Option Nat
  connection_status : Option ConnStatus
deriving DecidableEq, Repr

inductive ConnErr
  | notFound
  | alreadyConnected
  | notConnected
deriving DecidableEq, Repr

/-- `get_object_or_404(ConsolePort, pk=pk)`. -/
def findPort (s : List CPort) (p : Nat) : Option CPort :=
  s.find? (fun c => c.id == p)

/-- The ORM reverse relation `consoleserverport.connected_console`: the
console port whose `cs_port` points at the given server port. -/
def connected_console (s : List CPort) (sp : Nat) : Option CPort :=
  s.find? (fun c => c.cs_port == some sp)

/-- The peer of a console port: the server port its `cs_port` references. -/
def peerOfConsole (s : List CPort) (cp : Nat) : Option Nat :=
  (findPort s cp).bind (fun c => c.cs_port)

/-- The peer of a console server port: the console port connected to it. -/
def peerOfServer (s : List CPort) (sp : Nat) : Option Nat :=
  (connected_console s sp).map (fun c => c.id)

/-- Connection status observed on a console port. -/
def statusOfConsole (s : List CPort) (cp : Nat) : Option ConnStatus :=
  (findPort s cp).bind (fun c => c.connection_status)

/-- `consoleserverport_connect` (views.py lines 961-988): on a valid form the
view sets the chosen console port's `cs_port` to this server port and its
`connection_status` to the requested value, and saves.  The guard is
modelled from the spec: the form classes (`dcim/forms.py`) are not under
`src/`; per the spec (§4.4) `connect` "fails with `AlreadyConnectedError` if
either port already has a peer". -/
def connectUpd (cp sp : Nat) (st : ConnStatus) (c' : CPort) : CPort :=
  if c'.id == cp then { c' with cs_port := some sp, connection_status := some st }
  else c'

def consoleserverport_connect (s : List CPort) (cp sp : Nat) (st : ConnStatus) :
    Except ConnErr (List CPort) :=
  match findPort s cp with
  | none => .error .notFound
  | some c =>
    if c.cs_port.isSome || (connected_console s sp).isSome then
      .error .alreadyConnected
    else
      .ok (s.map (connectUpd cp sp st))

/-- `consoleport_disconnect` (views.py lines 864-890): refuses when
`consoleport.cs_port` is null ("It is not connected to anything"), otherwise
clears `cs_port` and `connection_status` and saves. -/
def discUpd (cp : Nat) (c' : CPort) : CPort :=
  if c'.id == cp then { c' with cs_port := none, connection_status := none }
  else c'

def consoleport_disconnect (s : List CPort) (cp : Nat) : Except ConnErr (List CPort) :=
  match findPort s cp with
  | none => .error .notFound
  | some c =>
    if c.cs_port.isNone then .error .notConnected
    else
      .ok (s.map (discUpd cp))

/-! ## DeviceBay install/remove and child-device bulk import
(`ChildDeviceBulkImportView.save_obj` views.py lines 644-651,
`devicebay_populate` lines 1411-1433, `devicebay_depopulate` lines 1437-1457)
-/

inductive Face
  | front
  | rear
deriving DecidableEq, Repr

/-- The face-orientation requirement of a mounted device: front-only,
rear-only, or occupying both faces. -/
inductive MountOrientation
  | frontOnly
  | rearOnly
  | both
deriving DecidableEq, Repr

/-- A stored `Device` record (the fields this subsystem reads or writes). -/
structure Device where
  id : Nat
  name : String
  rack : Option Nat
  position : Option Nat
  u_height : Nat
  orientation : MountOrientation
  parent_bay : Option Nat
deriving DecidableEq, Repr

/-- A stored `DeviceBay` record: owning parent device and the optional
installed child device. -/
structure DeviceBay where
  id : Nat
  device : Nat
  name : String
  installed_device : Option Nat
deriving DecidableEq, Repr

/-- The record store visible to the device-bay views. -/
structure DcimState where
  devices : List Device
  bays : List DeviceBay
deriving DecidableEq, Repr

def findDevice (ds : List Device) (p : Nat) : Option Device :=
  ds.find? (fun d => d.id == p)

def findBay (bs : List DeviceBay) (p : Nat) : Option DeviceBay :=
  bs.find? (fun b => b.id == p)

/-- `ChildDeviceBulkImportView.save_obj` (views.py lines 644-651):

```python
def save_obj(self, obj):
    # Inherent rack from parent device
    obj.rack = obj.parent_bay.device.rack
    obj.save()
    # Save the reverse relation
    device_bay = obj.parent_bay
    device_bay.installed_device = obj
    device_bay.save()
```

The imported child device's rack is overwritten from the parent bay's owning
device, and the bay's occupant reference is set to the child.  A missing
reference along the navigation chain (an `AttributeError` in Python) is
embedded as `none`. -/
def save_obj (st : DcimState) (objId : Nat) : Option DcimState :=
  match findDevice st.devices objId with
  | none => none
  | some obj =>
    match obj.parent_bay with
    | none => none
    | some bayId =>
      match findBay st.bays bayId with
      | none => none
      | some bay =>
        match findDevice st.devices bay.device with
        | none => none
        | some parent =>
          some { devices := st.devices.map (fun d =>
                   if d.id == objId then { d with rack := parent.rack } else d),
                 bays := st.bays.map (fun b =>
                   if b.id == bayId then { b with installed_device := some objId } else b) }

/-- `devicebay_populate` (views.py lines 1411-1433): on a valid form the view
sets the bay's `installed_device` to the chosen device and saves the bay.  It
performs no other write — in particular it never touches the chosen device's
rack. -/
def devicebay_populate (st : DcimState) (bayId chosen : Nat) : Option DcimState :=
  match findBay st.bays bayId with
  | none => none
  | some _ =>
    some { st with bays := st.bays.map (fun b =>
      if b.id == bayId then { b with installed_device := some chosen } else b) }

/-- `devicebay_depopulate` (views.py lines 1437-1457): unconditionally sets
the bay's `installed_device` to `None`, saves the bay, and reports success —
there is no "bay is already empty" guard (contrast `consoleport_disconnect`),
and no field of any `Device` record is written. -/
def devicebay_depopulate (st : DcimState) (bayId : Nat) : Option DcimState :=
  match findBay st.bays bayId with
  | none => none
  | some _ =>
    some { st with bays := st.bays.map (fun b =>
      if b.id == bayId then { b with installed_device := none } else b) }

/-- A parent device racked in rack 9. -/
def c8Parent : Device := ⟨1, "parent", some 9, some 1, 1, MountOrientation.frontOnly, none⟩

/-- An unracked child device declaring parent bay 10. -/
def c8Child : Device := ⟨2, "child", none, none, 0, MountOrientation.frontOnly, some 10⟩

/-- An empty bay owned by the parent device. -/
def c8Bay : DeviceBay := ⟨10, 1, "bay 1", none⟩

def c8State : DcimState := ⟨[c8Parent, c8Child], [c8Bay]⟩

/-! ## RackElevationBuilder

The rack view (views.py lines 192-208) renders
`rack.get_front_elevation()` / `rack.get_rear_elevation()`; the builder
itself lives in `dcim/models.py`, which is not under `src/`, so it is
modelled from the spec (§4.3). -/

/-- Whether a device appears in the elevation of face `f`: a device with
face-orientation "both" occupies both faces, a device fixed to one face
appears only in that face's elevation. -/
def appearsOn (d : Device) (f : Face) : Bool :=
  match d.orientation, f with
  | MountOrientation.both, _ => true
  | MountOrientation.frontOnly, Face.front => true
  | MountOrientation.rearOnly, Face.rear => true
  | _, _ => false

/-- Device `d` occupies unit `u` of the face-`f` elevation: positive height
(height-0 devices are excluded from elevations), a set position, `u` inside
the occupied range `[position, position + height - 1]`, and the orientation
covering face `f`. -/
def occupiesUnit (d : Device) (f : Face) (u : Nat) : Bool :=
  decide (0 < d.u_height) &&
  (match d.position with
   | none => false
   | some p => decide (p ≤ u) && decide (u < p + d.u_height)) &&
  appearsOn d f

/-- Two devices' occupied unit ranges intersect on face `f`. -/
def overlapsOnFace (a b : Device) (f : Face) : Bool :=
  appearsOn a f && appearsOn b f &&
  decide (0 < a.u_height) && decide (0 < b.u_height) &&
  (match a.position, b.position with
   | some p, some q => decide (max p q < min (p + a.u_height) (q + b.u_height))
   | _, _ => false)

/-- Some ordered pair of distinct entries of the device list overlaps on
face `f`. -/
def pairsConflict : List Device → Face → Bool
  | [], _ => false
  | d :: ds, f => ds.any (fun e => overlapsOnFace d e f) || pairsConflict ds f

inductive LayoutErr
  | layoutConflict
deriving DecidableEq, Repr

/-- Modelled from the spec: `Rack.get_front_elevation` /
`Rack.get_rear_elevation` (in `dcim/models.py`, not under `src/`).  Per the
spec (§4.3), the builder produces exactly `rack.height` unit slots (empty or
occupied by a device), excludes height-0 devices, places a face-orientation
"both" device on both faces, and "detects and reports (does not silently
resolve) unit-range overlap on the same face as a `LayoutConflict`"; it is a
pure projection that mutates nothing. -/
def buildElevation (height : Nat) (devices : List Device) (f : Face) :
    Except LayoutErr (List (Option Nat)) :=
  if pairsConflict devices f then Except.error LayoutErr.layoutConflict
  else Except.ok ((List.range' 1 height).map (fun u =>
    (devices.find? (fun d => occupiesUnit d f u)).map (fun d => d.id)))

/-- A height-2 device front-mounted at unit 1 of a 4-unit rack. -/
def c9Front : Device := ⟨21, "front device", some 3, some 1, 2, MountOrientation.frontOnly, none⟩

/-- A height-1 device rear-mounted at unit 1 of the same rack. -/
def c9Rear : Device := ⟨22, "rear device", some 3, some 1, 1, MountOrientation.rearOnly, none⟩

/-- A second height-2 device front-mounted at unit 2, overlapping `c9Front`
at unit 2 on the front face. -/
def c9FrontClash : Device :=
  ⟨23, "front clash", some 3, some 2, 2, MountOrientation.frontOnly, none⟩

/-! ## Theorems -/

theorem parseRange_length_lt {cs : List Char} {x y : Nat} {rest : List Char}
    (h : parseRange cs = some (x, y, rest)) : rest.length < cs.length := by
  have hcs : cs.length = (cs.takeWhile Char.isDigit).length + (cs.dropWhile Char.isDigit).length := by
    rw [← List.length_append, List.takeWhile_append_dropWhile]
  unfold parseRange at h
  split at h
  case _ c1 r2 heq1 =>
    rw [heq1] at hcs
    have hr2 : r2.length = (r2.takeWhile Char.isDigit).length + (r2.dropWhile Char.isDigit).length := by
      rw [← List.length_append, List.takeWhile_append_dropWhile]
    split at h
    · exact absurd h (by simp)
    · split at h
      · split at h
        case _ c3 rest2 heq2 =>
          rw [heq2] at hr2
          split at h
          · exact absurd h (by simp)
          · split at h
            · simp only [Option.some.injEq, Prod.mk.injEq] at h
              obtain ⟨-, -, hr⟩ := h
              subst hr
              simp only [List.length_cons] at hcs hr2
              omega
            · exact absurd h (by simp)
        case _ heq2 => exact absurd h (by simp)
      · exact absurd h (by simp)
  case _ heq1 => exact absurd h (by simp)

theorem findToken_remnant_lt {cs lead : List Char} {x y : Nat} {remnant : List Char}
    (h : findToken cs = some (lead, x, y, remnant)) : remnant.length < cs.length := by
  induction cs generalizing lead x y remnant with
  | nil => simp [findToken] at h
  | cons c rest ih =>
    rw [findToken] at h
    by_cases hc : c = '['
    · simp only [hc, if_true] at h
      match hp : parseRange rest with
      | some (x', y', rem') =>
        rw [hp] at h
        simp only [Option.some.injEq, Prod.mk.injEq] at h
        obtain ⟨-, -, -, hr⟩ := h
        subst hr
        have := parseRange_length_lt hp
        simp only [List.length_cons]; omega
      | none =>
        rw [hp] at h
        simp only [Option.map_eq_some'] at h
        obtain ⟨⟨l', x', y', r'⟩, ht, heq⟩ := h
        simp only [Prod.mk.injEq] at heq
        obtain ⟨-, -, -, hr⟩ := heq
        subst hr
        have := ih ht
        simp only [List.length_cons]; omega
    · simp only [hc, if_false, Option.map_eq_some'] at h
      obtain ⟨⟨l', x', y', r'⟩, ht, heq⟩ := h
      simp only [Prod.mk.injEq] at heq
      obtain ⟨-, -, -, hr⟩ := heq
      subst hr
      have := ih ht
      simp only [List.length_cons]; omega

/-- The fuel argument of `expandP` is irrelevant as long as it exceeds the
input length: each recursive call strictly shrinks the input
(`findToken_remnant_lt`), so `cs.length + 1` units of fuel always suffice and
the fuel-exhaustion branch is unreachable. -/
theorem expandP_fuel_eq : ∀ {fuel fuel' : Nat} {cs : List Char},
    cs.length < fuel → cs.length < fuel' → expandP fuel cs = expandP fuel' cs := by
  intro fuel
  induction fuel with
  | zero => intro fuel' cs h h'; omega
  | succ f ih =>
    intro fuel' cs h h'
    cases fuel' with
    | zero => omega
    | succ f' =>
      rcases hft : findToken cs with - | ⟨lead, x, y, remnant⟩
      · simp [expandP, hft]
      · have hlt := findToken_remnant_lt hft
        by_cases hre : remnant.isEmpty
        · simp [expandP, hft, hre]
        · have hrec : expandP f remnant = expandP f' remnant := ih (by omega) (by omega)
          simp [expandP, hft, hre, hrec]

theorem flatMap_single {α β : Type} (l : List α) (g : α → β) :
    (l.flatMap fun i => [g i]) = l.map g :=
  (List.map_eq_flatMap g l).symm

theorem expandP_eq_buildNames : ∀ {fuel : Nat} {cs : List Char}
    {segs : List (List Char × Nat × Nat)},
    segChain fuel cs = some segs → expandP fuel cs = some (buildNames segs) := by
  intro fuel
  induction fuel with
  | zero => intro cs segs h; exact absurd h (by simp [segChain])
  | succ f ih =>
    intro cs segs h
    rcases hft : findToken cs with - | ⟨lead, x, y, remnant⟩
    · exact absurd h (by simp [segChain, hft])
    · simp only [segChain, hft] at h
      by_cases hre : remnant.isEmpty
      · simp only [hre, if_true, Option.some.injEq] at h
        subst h
        simp only [expandP, hft, hre, if_true, buildNames, List.map_cons, List.map_nil]
        rw [flatMap_single]
        simp [String.append_empty]
      · simp only [hre, if_false] at h
        rcases hsc : segChain f remnant with - | segs'
        · rw [hsc] at h; exact absurd h (by simp)
        · rw [hsc] at h
          simp only [Bool.false_eq_true, if_false, Option.map_some', Option.some.injEq,
            hre] at h
          subst h
          simp [expandP, hft, hre, ih hsc, buildNames]

theorem length_flatMap_const {α β : Type} (L : List α) (g : α → List β) (n : Nat)
    (hg : ∀ i, (g i).length = n) : (L.flatMap g).length = L.length * n := by
  induction L with
  | nil => simp
  | cons a t iht => simp [List.flatMap_cons, hg, iht, Nat.succ_mul]; ring

theorem buildNames_length (segs : List (List Char × Nat × Nat)) :
    (buildNames segs).length = segs.foldr (fun seg acc => (seg.2.2 + 1 - seg.2.1) * acc) 1 := by
  induction segs with
  | nil => rfl
  | cons seg rest ih =>
    obtain ⟨lead, x, y⟩ := seg
    rw [buildNames, length_flatMap_const _ _ (buildNames rest).length (fun i => by simp),
      List.length_range']
    simp [List.foldr_cons, ih]

theorem foldr_width_congr : ∀ (l : List (List Char × Nat × Nat)),
    (∀ seg ∈ l, seg.2.1 ≤ seg.2.2) →
    l.foldr (fun seg acc => (seg.2.2 + 1 - seg.2.1) * acc) 1 =
      l.foldr (fun seg acc => (seg.2.2 - seg.2.1 + 1) * acc) 1 := by
  intro l
  induction l with
  | nil => intro _; rfl
  | cons seg rest ih =>
    intro hl
    simp only [List.foldr_cons]
    rw [ih (fun t ht => hl t (List.mem_cons_of_mem _ ht))]
    have := hl seg (List.mem_cons_self _ _)
    have heq : seg.2.2 + 1 - seg.2.1 = seg.2.2 - seg.2.1 + 1 := by omega
    rw [heq]

/-- C3 (amended): for every pattern whose leftmost-token chain decomposes into
segments `(lead_i, start_i, end_i)` with `start_i ≤ end_i` and with no literal
text after the final range token, `expand_pattern` succeeds and produces
exactly `buildNames segs` — the nested enumeration in which the outermost
(leftmost) range varies slowest and the innermost fastest, each integer of
`[start_i, end_i]` substituted in place of its bracket token — whose length
is `∏ (end_i - start_i + 1)`.  (The original claim also covered trailing
literal text after the final range, where the code instead raises; see the
counterexample.) -/
theorem expand_pattern_product_order (s : String) (segs : List (List Char × Nat × Nat))
    (hseg : segments s = some segs)
    (hxy : ∀ seg ∈ segs, seg.2.1 ≤ seg.2.2) :
    expand_pattern s = some (buildNames segs) ∧
    (buildNames segs).length =
      segs.foldr (fun seg acc => (seg.2.2 - seg.2.1 + 1) * acc) 1 := by
  refine ⟨expandP_eq_buildNames hseg, ?_⟩
  rw [buildNames_length, foldr_width_congr segs hxy]

theorem expand_pattern_product_order_witness :
    segments "xe-0/[0-1]/[0-1]" = some [("xe-0/".data, 0, 1), ("/".data, 0, 1)] ∧
    expand_pattern "xe-0/[0-1]/[0-1]" =
      some (buildNames [("xe-0/".data, 0, 1), ("/".data, 0, 1)]) ∧
    (buildNames [("xe-0/".data, 0, 1), ("/".data, 0, 1)]).length =
      [(("xe-0/".data : List Char), 0, 1), ("/".data, 0, 1)].foldr
        (fun seg acc => (seg.2.2 - seg.2.1 + 1) * acc) 1 :=
  ⟨by decide,
   (expand_pattern_product_order "xe-0/[0-1]/[0-1]" [("xe-0/".data, 0, 1), ("/".data, 0, 1)]
     (by decide) (by decide)).1,
   (expand_pattern_product_order "xe-0/[0-1]/[0-1]" [("xe-0/".data, 0, 1), ("/".data, 0, 1)]
     (by decide) (by decide)).2⟩

/-- C3 (counterexample): on the well-formed pattern `a[0-1]b` — literal text,
one range with start ≤ end, trailing literal text — the claim says `expand`
produces the 2 names `["a0b", "a1b"]`; the code instead raises an uncaught
`ValueError` (the recursion on the bracket-free remnant `"b"` fails to
unpack), embedded here as `none`. -/
theorem expand_trailing_literal_counterexample :
    expand "a[0-1]b" = none ∧ expand "a[0-1]b" ≠ some ["a0b", "a1b"] := by decide

/-- C4: a pattern containing no bracketed range token expands to the single
literal pattern, unchanged. -/
theorem expand_no_token_yields_literal (s : String) (h : findToken s.data = none) :
    expand s = some [s] := by
  unfold expand
  rw [h]
  rfl

theorem expand_no_token_yields_literal_witness :
    findToken "ge-0/0/7".data = none ∧ expand "ge-0/0/7" = some ["ge-0/0/7"] :=
  ⟨by decide, expand_no_token_yields_literal "ge-0/0/7" (by decide)⟩

/-- C5 (counterexample): the claim says `expand` fails with `PatternError` on
`"ge-0/0/[3-1]"` (start > end) rather than returning a possibly-empty
sequence of names; the code instead returns the empty sequence of names and
raises nothing (`range(3, 2)` is empty, so the generator yields no name). -/
theorem expand_start_gt_end_counterexample :
    expand "ge-0/0/[3-1]" = some ([] : List String) ∧
      expand "ge-0/0/[3-1]" ≠ none := by decide

/-- C5 (amended): when the leftmost range token has start > end, `expand`
yields the empty sequence of names instead of failing; and (per the confirmed
C4 theorem) a pattern whose bracket text is not `digits-digits` — non-integer
bounds, unbalanced brackets — is not recognized as a range token at all, so
such a pattern is yielded as a single literal name.  No `PatternError` exists
anywhere in the code. -/
theorem expand_start_gt_end_yields_empty (s : String) (lead : List Char) (x y : Nat)
    (remnant : List Char) (h : findToken s.data = some (lead, x, y, remnant))
    (hxy : y < x) : expand s = some [] := by
  unfold expand expand_pattern
  rw [h]
  simp only [Option.isSome_some, if_true]
  have hz : y + 1 - x = 0 := by omega
  by_cases hre : remnant.isEmpty
  · simp [expandP, h, hre, hz]
  · rcases hrec : expandP s.length remnant with - | tails
    · simp [expandP, h, hre, hrec, Nat.not_le.mpr hxy]
    · simp [expandP, h, hre, hrec, hz]

theorem expand_start_gt_end_yields_empty_witness :
    findToken "ge-0/0/[3-1]".data = some ("ge-0/0/".data, 3, 1, []) ∧ (1 : Nat) < 3 ∧
      expand "ge-0/0/[3-1]" = some [] :=
  ⟨by decide, by decide,
   expand_start_gt_end_yields_empty "ge-0/0/[3-1]" "ge-0/0/".data 3 1 [] (by decide) (by decide)⟩

theorem addNames_error_mem {db : List Component} {d : Nat} :
    ∀ {ns : List String} {n : String}, n ∈ ns → formValid db d n = false →
      (d, n) ∈ (addNamesForDevice db d ns).2 := by
  intro ns
  induction ns with
  | nil => intro n hn _; exact absurd hn (List.not_mem_nil n)
  | cons m ms ih =>
    intro n hn hv
    simp only [addNamesForDevice]
    rcases List.mem_cons.mp hn with rfl | hn'
    · rw [if_neg (by simp [hv])]
      exact List.mem_cons_self _ _
    · by_cases hm : formValid db d m
      · rw [if_pos hm]
        exact ih hn' hv
      · rw [if_neg hm]
        exact List.mem_cons_of_mem _ (ih hn' hv)

theorem addNames_all_valid {db : List Component} {d : Nat} :
    ∀ {ns : List String}, (∀ n ∈ ns, formValid db d n = true) →
      addNamesForDevice db d ns = (ns.map (fun n => ⟨d, n⟩), []) := by
  intro ns
  induction ns with
  | nil => intro _; rfl
  | cons m ms ih =>
    intro h
    simp only [addNamesForDevice, ih (fun n hn => h n (List.mem_cons_of_mem _ hn)),
      if_pos (h m (List.mem_cons_self _ _)), List.map_cons]

theorem loop_error_mem {db : List Component} {names : List String} :
    ∀ {ds : List Nat} {d : Nat} {n : String}, d ∈ ds → n ∈ names →
      formValid db d n = false → (d, n) ∈ (addComponentsLoop db ds names).2 := by
  intro ds
  induction ds with
  | nil => intro d n hd _ _; exact absurd hd (List.not_mem_nil d)
  | cons e es ih =>
    intro d n hd hn hv
    simp only [addComponentsLoop, List.mem_append]
    rcases List.mem_cons.mp hd with rfl | hd'
    · exact Or.inl (addNames_error_mem hn hv)
    · exact Or.inr (ih hd' hn hv)

theorem loop_all_valid {db : List Component} {names : List String} :
    ∀ {ds : List Nat}, (∀ d ∈ ds, ∀ n ∈ names, formValid db d n = true) →
      addComponentsLoop db ds names =
        (ds.flatMap (fun d => names.map (fun n => ⟨d, n⟩)), []) := by
  intro ds
  induction ds with
  | nil => intro _; rfl
  | cons e es ih =>
    intro h
    simp only [addComponentsLoop, addNames_all_valid (h e (List.mem_cons_self _ _)),
      ih (fun d hd => h d (List.mem_cons_of_mem _ hd)), List.flatMap_cons,
      List.append_nil]

/-- C1: bulk component provisioning is all-or-nothing and error-accumulating:
if any candidate of the batch fails validation, the stored records are left
exactly as they were and the reported error list contains every invalid
candidate of the whole batch; a batch with zero failures writes every
candidate (device-major, name-minor order) and reports no error. -/
theorem bulkAdd_all_or_nothing (db : List Component) (devices : List Nat)
    (names : List String) :
    ((∃ d ∈ devices, ∃ n ∈ names, formValid db d n = false) →
      (bulkAddComponents db devices names).1 = db ∧
      ∀ d ∈ devices, ∀ n ∈ names, formValid db d n = false →
        (d, n) ∈ (bulkAddComponents db devices names).2) ∧
    ((∀ d ∈ devices, ∀ n ∈ names, formValid db d n = true) →
      (bulkAddComponents db devices names).1 =
        db ++ devices.flatMap (fun d => names.map (fun n => ⟨d, n⟩)) ∧
      (bulkAddComponents db devices names).2 = []) := by
  constructor
  · rintro ⟨d, hd, n, hn, hv⟩
    have hmem : (d, n) ∈ (addComponentsLoop db devices names).2 :=
      loop_error_mem hd hn hv
    have hne : ((addComponentsLoop db devices names).2).isEmpty = false := by
      rcases hmposs : (addComponentsLoop db devices names).2 with - | ⟨p, ps⟩
      · rw [hmposs] at hmem; exact absurd hmem (List.not_mem_nil _)
      · rfl
    refine ⟨?_, ?_⟩
    · simp [bulkAddComponents, hne]
    · intro d' hd' n' hn' hv'
      have : (d', n') ∈ (addComponentsLoop db devices names).2 :=
        loop_error_mem hd' hn' hv'
      simpa [bulkAddComponents, hne] using this
  · intro h
    simp [bulkAddComponents, loop_all_valid h]

theorem bulkAdd_all_or_nothing_witness :
    ((bulkAddComponents [⟨0, "a"⟩] [0] ["a", "b"]).1 = [⟨0, "a"⟩] ∧
      (0, "a") ∈ (bulkAddComponents [⟨0, "a"⟩] [0] ["a", "b"]).2) ∧
    (bulkAddComponents [] [0, 1] ["c"]).1 =
      [] ++ [0, 1].flatMap (fun d => ["c"].map (fun n => ⟨d, n⟩)) := by
  have h1 := (bulkAdd_all_or_nothing [⟨0, "a"⟩] [0] ["a", "b"]).1 (by decide)
  have h2 := (bulkAdd_all_or_nothing [] [0, 1] ["c"]).2 (by decide)
  exact ⟨⟨h1.1, h1.2 0 (by decide) "a" (by decide) (by decide)⟩, h2.1⟩

/-- C2 (code bug): validation does NOT read a snapshot including the batch's
own staged writes.  The single user pattern `[1-11][1-11]` legitimately
expands to a batch in which the name `"111"` occurs twice (1 followed by 11,
and 11 followed by 1); provisioning that batch on one device with no existing
components validates every candidate against the stored records only, so both
`"111"` candidates pass, the error list is empty, and both duplicates are
persisted — where the claim requires both to be rejected and nothing to be
created. -/
theorem bulkAdd_intra_batch_duplicates_created :
    ((expand "[1-11][1-11]").getD []).count "111" = 2 ∧
    (bulkAddComponents [] [0] ((expand "[1-11][1-11]").getD [])).2 = [] ∧
    ((bulkAddComponents [] [0] ((expand "[1-11][1-11]").getD [])).1.count ⟨0, "111"⟩) = 2 := by
  decide

theorem find?_congr_mem {α : Type} {p q : α → Bool} :
    ∀ {l : List α}, (∀ a ∈ l, p a = q a) → l.find? p = l.find? q := by
  intro l
  induction l with
  | nil => intro _; rfl
  | cons a t ih =>
    intro h
    rw [List.find?_cons, List.find?_cons, h a (List.mem_cons_self _ _),
      ih (fun b hb => h b (List.mem_cons_of_mem _ hb))]

/-- Anatomy of a successful `consoleserverport_connect`: the console port
exists and is unconnected, no console port points at the server port, and the
result updates exactly the records with the chosen id. -/
theorem connect_ok_anatomy {s : List CPort} {A B : Nat} {st : ConnStatus}
    {s₁ : List CPort} (h : consoleserverport_connect s A B st = .ok s₁) :
    ∃ c, findPort s A = some c ∧ c.cs_port = none ∧ connected_console s B = none ∧
      s₁ = s.map (connectUpd A B st) := by
  unfold consoleserverport_connect at h
  rcases hf : findPort s A with - | c
  · rw [hf] at h; exact absurd h (by simp)
  · rw [hf] at h
    simp only at h
    by_cases hg : (c.cs_port.isSome || (connected_console s B).isSome) = true
    · rw [if_pos hg] at h; exact absurd h (by simp)
    · rw [if_neg hg] at h
      simp only [Bool.or_eq_true, not_or, Bool.not_eq_true] at hg
      simp only [Except.ok.injEq] at h
      exact ⟨c, rfl, Option.not_isSome_iff_eq_none.mp (by simp [hg.1]),
        Option.not_isSome_iff_eq_none.mp (by simp [hg.2]), h.symm⟩

theorem connectUpd_id (cp sp : Nat) (st : ConnStatus) (c : CPort) :
    (connectUpd cp sp st c).id = c.id := by
  unfold connectUpd; split <;> rfl

theorem discUpd_id (cp : Nat) (c : CPort) : (discUpd cp c).id = c.id := by
  unfold discUpd; split <;> rfl

theorem findPort_map {s : List CPort} {f : CPort → CPort}
    (hid : ∀ c, (f c).id = c.id) (p : Nat) :
    findPort (s.map f) p = (findPort s p).map f := by
  unfold findPort
  rw [List.find?_map]
  congr 1
  exact find?_congr_mem (fun a _ => by simp [Function.comp, hid])

theorem connected_console_map_none {s : List CPort} {B : Nat} {f : CPort → CPort}
    (hall : ∀ e ∈ s, ((f e).cs_port == some B) = false) :
    connected_console (s.map f) B = none := by
  unfold connected_console
  rw [List.find?_eq_none]
  intro x hx
  obtain ⟨e, he, rfl⟩ := List.mem_map.mp hx
  simp [hall e he]

theorem connected_console_after_connect {s : List CPort} {A B : Nat} {st : ConnStatus}
    {c : CPort} (hf : findPort s A = some c)
    (hnone : connected_console s B = none) :
    connected_console (s.map (connectUpd A B st)) B = some (connectUpd A B st c) := by
  unfold connected_console
  rw [List.find?_map]
  have hagree : ∀ e ∈ s,
      (((fun c' : CPort => c'.cs_port == some B) ∘ connectUpd A B st) e) = (e.id == A) := by
    intro e he
    by_cases hid : (e.id == A) = true
    · simp [Function.comp, connectUpd, hid]
    · have hcs : ¬ (e.cs_port == some B) = true := by
        have := List.find?_eq_none.mp hnone e he
        simpa using this
      simp only [Function.comp, connectUpd, Bool.not_eq_true] at hid ⊢
      rw [if_neg (by simp [hid])]
      simp only [hid]
      simpa using hcs
  rw [find?_congr_mem hagree]
  unfold findPort at hf
  rw [hf]
  rfl

/-- Full description of the state after a successful
`consoleserverport_connect`. -/
theorem connect_ok_state {s : List CPort} {A B : Nat} {st : ConnStatus}
    {s₁ : List CPort} (h : consoleserverport_connect s A B st = Except.ok s₁) :
    ∃ c, findPort s A = some c ∧ (c.id == A) = true ∧ c.cs_port = none ∧
      connected_console s B = none ∧ s₁ = s.map (connectUpd A B st) ∧
      findPort s₁ A = some { c with cs_port := some B, connection_status := some st } ∧
      connected_console s₁ B =
        some { c with cs_port := some B, connection_status := some st } := by
  obtain ⟨c, hf, hcs, hcc, hs₁⟩ := connect_ok_anatomy h
  have hf' : s.find? (fun c' => c'.id == A) = some c := hf
  have hcA : (c.id == A) = true := by
    have hp := List.find?_some hf'
    simpa using hp
  have hupd : connectUpd A B st c =
      { c with cs_port := some B, connection_status := some st } := by
    unfold connectUpd; rw [if_pos hcA]
  refine ⟨c, hf, hcA, hcs, hcc, hs₁, ?_, ?_⟩
  · rw [hs₁, findPort_map (connectUpd_id A B st), hf, Option.map_some', hupd]
  · rw [hs₁, connected_console_after_connect hf hcc, hupd]

/-- C6: when port A is already connected to peer B, a further
`connect(A, C)` (without disconnecting first) fails with
`AlreadyConnectedError`, and the A↔B connection (peer references both ways
and status) is unchanged; moreover a connect can only have succeeded from a
state where both ports had no peer. -/
theorem connect_on_connected_port_fails (s : List CPort) (A B C : Nat)
    (st st' : ConnStatus) (s₁ : List CPort)
    (h : consoleserverport_connect s A B st = Except.ok s₁) :
    peerOfConsole s A = none ∧ peerOfServer s B = none ∧
    consoleserverport_connect s₁ A C st' = Except.error ConnErr.alreadyConnected ∧
    peerOfConsole s₁ A = some B ∧ peerOfServer s₁ B = some A ∧
    statusOfConsole s₁ A = some st := by
  obtain ⟨c, hf, hcA, hcs, hcc, hs₁, hf₁, hcc₁⟩ := connect_ok_state h
  have hcid : c.id = A := by simpa using hcA
  refine ⟨?_, ?_, ?_, ?_, ?_, ?_⟩
  · unfold peerOfConsole; rw [hf]; simp [hcs]
  · unfold peerOfServer; rw [hcc]; rfl
  · unfold consoleserverport_connect
    rw [hf₁]
    simp
  · unfold peerOfConsole; rw [hf₁]; rfl
  · unfold peerOfServer; rw [hcc₁]; simp [hcid]
  · unfold statusOfConsole; rw [hf₁]; rfl

theorem connect_on_connected_port_fails_witness :
    consoleserverport_connect [⟨0, some 5, some ConnStatus.planned⟩] 0 7 ConnStatus.connected
      = Except.error ConnErr.alreadyConnected :=
  (connect_on_connected_port_fails [⟨0, none, none⟩] 0 5 7 ConnStatus.planned
    ConnStatus.connected [⟨0, some 5, some ConnStatus.planned⟩] rfl).2.2.1

/-- C7: immediately after a successful connect the peer relation is
reflexive in both directions (`peer(peer(A)) = A`, `peer(peer(B)) = B`), and
a subsequent disconnect succeeds and returns both ports to the unconnected
state: peer reference and status cleared on both ends. -/
theorem connect_disconnect_roundtrip (s : List CPort) (A B : Nat) (st : ConnStatus)
    (s₁ : List CPort) (h : consoleserverport_connect s A B st = Except.ok s₁) :
    peerOfConsole s₁ A = some B ∧ peerOfServer s₁ B = some A ∧
    ∃ s₂, consoleport_disconnect s₁ A = Except.ok s₂ ∧
      peerOfConsole s₂ A = none ∧ statusOfConsole s₂ A = none ∧
      peerOfServer s₂ B = none := by
  obtain ⟨c, hf, hcA, hcs, hcc, hs₁, hf₁, hcc₁⟩ := connect_ok_state h
  have hcid : c.id = A := by simpa using hcA
  refine ⟨?_, ?_, s₁.map (discUpd A), ?_, ?_, ?_, ?_⟩
  · unfold peerOfConsole; rw [hf₁]; rfl
  · unfold peerOfServer; rw [hcc₁]; simp [hcid]
  · unfold consoleport_disconnect
    rw [hf₁]
    simp
  · unfold peerOfConsole
    rw [findPort_map (discUpd_id A), hf₁]
    simp [discUpd, hcid]
  · unfold statusOfConsole
    rw [findPort_map (discUpd_id A), hf₁]
    simp [discUpd, hcid]
  · unfold peerOfServer
    rw [connected_console_map_none ?hall]
    · rfl
    case hall =>
      intro e he
      rw [hs₁] at he
      obtain ⟨e₀, he₀, rfl⟩ := List.mem_map.mp he
      by_cases hid : (e₀.id == A) = true
      · simp [discUpd, connectUpd, hid]
      · have hns : ¬ (e₀.cs_port == some B) = true := by
          simpa using List.find?_eq_none.mp hcc e₀ he₀
        simp only [discUpd, connectUpd, hid, Bool.false_eq_true, if_false]
        simpa using hns

theorem connect_disconnect_roundtrip_witness :
    peerOfConsole [⟨0, some 5, some ConnStatus.connected⟩] 0 = some 5 ∧
    peerOfServer [⟨0, some 5, some ConnStatus.connected⟩] 5 = some 0 ∧
    ∃ s₂, consoleport_disconnect [⟨0, some 5, some ConnStatus.connected⟩] 0 = Except.ok s₂ ∧
      peerOfConsole s₂ 0 = none ∧ statusOfConsole s₂ 0 = none ∧ peerOfServer s₂ 5 = none :=
  connect_disconnect_roundtrip [⟨0, none, none⟩] 0 5 ConnStatus.connected
    [⟨0, some 5, some ConnStatus.connected⟩] rfl

theorem find?_map_idpres {α : Type} (l : List α) (f : α → α) (g : α → Nat)
    (hid : ∀ a, g (f a) = g a) (p : Nat) :
    (l.map f).find? (fun a => g a == p) = (l.find? (fun a => g a == p)).map f := by
  rw [List.find?_map]
  congr 1
  exact find?_congr_mem (fun a _ => by simp [Function.comp, hid])

theorem depopulate_devices_eq {st : DcimState} {bayId : Nat} {st' : DcimState}
    (h : devicebay_depopulate st bayId = some st') : st'.devices = st.devices := by
  unfold devicebay_depopulate at h
  rcases hb : findBay st.bays bayId with - | b
  · rw [hb] at h; exact absurd h (by simp)
  · rw [hb] at h
    simp only [Option.some.injEq] at h
    rw [← h]

/-- C8 (counterexample): the claim says every install path applies placement
inheritance.  Installing child device 2 into bay 10 through
`devicebay_populate` succeeds and sets the bay's occupant, but leaves the
`Device` records — and hence the child's rack, still `none` while the parent
is racked in rack 9 — completely untouched: this install path performs no
rack inheritance. -/
theorem devicebay_populate_counterexample :
    devicebay_populate c8State 10 2 =
      some ⟨[c8Parent, c8Child], [⟨10, 1, "bay 1", some 2⟩]⟩ ∧
    c8Parent.rack = some 9 ∧ c8Child.rack = none ∧
    (devicebay_populate c8State 10 2).map
        (fun st' => (findDevice st'.devices 2).map (fun d => d.rack)) =
      some (some none) := by decide

/-- C8 (amended): placement inheritance is applied on the child-device
bulk-import install path: `save_obj` overwrites the child's rack with the
parent bay's owning device's rack and sets the bay's occupant; a subsequent
removal through `devicebay_depopulate` succeeds, changes no field of any
`Device` record, and in particular leaves the child's inherited rack
unchanged (removal does not un-rack the device).  (The original claim's
"every install path" is refuted by the counterexample: `devicebay_populate`
sets only the bay's occupant reference.) -/
theorem save_obj_rack_inheritance (st : DcimState) (objId bayId : Nat)
    (obj : Device) (bay : DeviceBay) (parent : Device)
    (hobj : findDevice st.devices objId = some obj)
    (hpb : obj.parent_bay = some bayId)
    (hbay : findBay st.bays bayId = some bay)
    (hpar : findDevice st.devices bay.device = some parent) :
    ∃ st', save_obj st objId = some st' ∧
      (findDevice st'.devices objId).map (fun d => d.rack) = some parent.rack ∧
      (findBay st'.bays bayId).map (fun b => b.installed_device) = some (some objId) ∧
      ∃ st'', devicebay_depopulate st' bayId = some st'' ∧
        st''.devices = st'.devices ∧
        (findDevice st''.devices objId).map (fun d => d.rack) = some parent.rack := by
  have hobjId : (obj.id == objId) = true := by
    have hp := List.find?_some (show st.devices.find? (fun d => d.id == objId) = some obj from hobj)
    simpa using hp
  have hbayId : (bay.id == bayId) = true := by
    have hp := List.find?_some (show st.bays.find? (fun b => b.id == bayId) = some bay from hbay)
    simpa using hp
  set fdev : Device → Device :=
    fun d => if d.id == objId then { d with rack := parent.rack } else d with hfdev
  set fbay : DeviceBay → DeviceBay :=
    fun b => if b.id == bayId then { b with installed_device := some objId } else b with hfbay
  have hdevid : ∀ d : Device, (fdev d).id = d.id := by
    intro d; rw [hfdev]; dsimp only; split <;> rfl
  have hbayid : ∀ b : DeviceBay, (fbay b).id = b.id := by
    intro b; rw [hfbay]; dsimp only; split <;> rfl
  have hsave : save_obj st objId =
      some ⟨st.devices.map fdev, st.bays.map fbay⟩ := by
    unfold save_obj
    rw [hobj]
    simp only [hpb, hbay, hpar]
  refine ⟨⟨st.devices.map fdev, st.bays.map fbay⟩, hsave, ?_, ?_, ?_⟩
  · show (findDevice (st.devices.map fdev) objId).map (fun d => d.rack) = some parent.rack
    unfold findDevice
    rw [find?_map_idpres st.devices fdev Device.id hdevid objId]
    have : st.devices.find? (fun d => d.id == objId) = some obj := hobj
    rw [this]
    simp only [Option.map_some']
    rw [hfdev]
    simp [hobjId]
  · show (findBay (st.bays.map fbay) bayId).map (fun b => b.installed_device) = some (some objId)
    unfold findBay
    rw [find?_map_idpres st.bays fbay DeviceBay.id hbayid bayId]
    have : st.bays.find? (fun b => b.id == bayId) = some bay := hbay
    rw [this]
    simp only [Option.map_some']
    rw [hfbay]
    simp [hbayId]
  · have hfindbay : findBay (st.bays.map fbay) bayId = some (fbay bay) := by
      unfold findBay
      rw [find?_map_idpres st.bays fbay DeviceBay.id hbayid bayId]
      have : st.bays.find? (fun b => b.id == bayId) = some bay := hbay
      rw [this]; rfl
    set gbay : DeviceBay → DeviceBay :=
      fun b => if b.id == bayId then { b with installed_device := none } else b with hgbay
    have hdep : devicebay_depopulate ⟨st.devices.map fdev, st.bays.map fbay⟩ bayId =
        some ⟨st.devices.map fdev, (st.bays.map fbay).map gbay⟩ := by
      unfold devicebay_depopulate
      rw [hfindbay]
    refine ⟨⟨st.devices.map fdev, (st.bays.map fbay).map gbay⟩, hdep, rfl, ?_⟩
    show (findDevice (st.devices.map fdev) objId).map (fun d => d.rack) = some parent.rack
    unfold findDevice
    rw [find?_map_idpres st.devices fdev Device.id hdevid objId]
    have : st.devices.find? (fun d => d.id == objId) = some obj := hobj
    rw [this]
    simp only [Option.map_some']
    rw [hfdev]
    simp [hobjId]

theorem save_obj_rack_inheritance_witness :
    ∃ st', save_obj c8State 2 = some st' ∧
      (findDevice st'.devices 2).map (fun d => d.rack) = some c8Parent.rack ∧
      (findBay st'.bays 10).map (fun b => b.installed_device) = some (some 2) ∧
      ∃ st'', devicebay_depopulate st' 10 = some st'' ∧
        st''.devices = st'.devices ∧
        (findDevice st''.devices 2).map (fun d => d.rack) = some c8Parent.rack :=
  save_obj_rack_inheritance c8State 2 10 c8Child c8Bay c8Parent
    (by decide) (by decide) (by decide) (by decide)

/-- C10: `devicebay_depopulate` on a bay whose `installed_device` is already
`None` does not fail: it succeeds (reporting success), the bay ends (stays)
empty, and no `Device` record is touched — unlike `consoleport_disconnect`,
which rejects an unconnected port with a "not connected" warning. -/
theorem depopulate_empty_bay_succeeds (st : DcimState) (bayId : Nat) (b : DeviceBay)
    (hb : findBay st.bays bayId = some b) (hempty : b.installed_device = none) :
    (∃ st', devicebay_depopulate st bayId = some st' ∧ st'.devices = st.devices ∧
      findBay st'.bays bayId = some b) ∧
    (∀ (s : List CPort) (cp : Nat) (c : CPort), findPort s cp = some c →
      c.cs_port = none →
      consoleport_disconnect s cp = Except.error ConnErr.notConnected) := by
  constructor
  · have hbayId : (b.id == bayId) = true := by
      have hp := List.find?_some (show st.bays.find? (fun b' => b'.id == bayId) = some b from hb)
      simpa using hp
    set gbay : DeviceBay → DeviceBay :=
      fun b' => if b'.id == bayId then { b' with installed_device := none } else b' with hgbay
    have hgid : ∀ b' : DeviceBay, (gbay b').id = b'.id := by
      intro b'; rw [hgbay]; dsimp only; split <;> rfl
    have hdep : devicebay_depopulate st bayId = some ⟨st.devices, st.bays.map gbay⟩ := by
      unfold devicebay_depopulate
      rw [hb]
    refine ⟨⟨st.devices, st.bays.map gbay⟩, hdep, rfl, ?_⟩
    show findBay (st.bays.map gbay) bayId = some b
    unfold findBay
    rw [find?_map_idpres st.bays gbay DeviceBay.id hgid bayId]
    have hb' : st.bays.find? (fun b' => b'.id == bayId) = some b := hb
    rw [hb']
    simp only [Option.map_some', Option.some.injEq]
    rw [hgbay]
    dsimp only
    rw [if_pos hbayId]
    cases b with
    | mk i d n inst => simp_all
  · intro s cp c hf hcs
    unfold consoleport_disconnect
    rw [hf]
    simp [hcs]

theorem depopulate_empty_bay_succeeds_witness :
    (∃ st', devicebay_depopulate c8State 10 = some st' ∧ st'.devices = c8State.devices ∧
      findBay st'.bays 10 = some c8Bay) ∧
    (∀ (s : List CPort) (cp : Nat) (c : CPort), findPort s cp = some c →
      c.cs_port = none →
      consoleport_disconnect s cp = Except.error ConnErr.notConnected) :=
  depopulate_empty_bay_succeeds c8State 10 c8Bay (by decide) (by decide)

theorem occupies_both_overlaps {a b : Device} {f : Face} {u : Nat}
    (ha : occupiesUnit a f u = true) (hb : occupiesUnit b f u = true) :
    overlapsOnFace a b f = true := by
  unfold occupiesUnit at ha hb
  unfold overlapsOnFace
  simp only [Bool.and_eq_true, decide_eq_true_eq] at ha hb ⊢
  obtain ⟨⟨hha, hpa⟩, haf⟩ := ha
  obtain ⟨⟨hhb, hpb⟩, hbf⟩ := hb
  refine ⟨⟨⟨⟨haf, hbf⟩, hha⟩, hhb⟩, ?_⟩
  rcases hap : a.position with - | p
  · rw [hap] at hpa; exact absurd hpa (by simp)
  · rcases hbp : b.position with - | q
    · rw [hbp] at hpb; exact absurd hpb (by simp)
    · rw [hap] at hpa
      rw [hbp] at hpb
      simp only [Bool.and_eq_true, decide_eq_true_eq] at hpa hpb
      simp only [decide_eq_true_eq]
      omega

theorem mem_pairsConflict {f : Face} {a b : Device}
    (hov : overlapsOnFace a b f = true) (hov' : overlapsOnFace b a f = true)
    (hne : a ≠ b) :
    ∀ {devices : List Device}, a ∈ devices → b ∈ devices →
      pairsConflict devices f = true := by
  intro devices
  induction devices with
  | nil => intro ha _; exact absurd ha (List.not_mem_nil a)
  | cons d ds ih =>
    intro ha hb
    simp only [pairsConflict, Bool.or_eq_true, List.any_eq_true]
    rcases List.mem_cons.mp ha with rfl | ha'
    · rcases List.mem_cons.mp hb with rfl | hb'
      · exact absurd rfl hne
      · exact Or.inl ⟨b, hb', hov⟩
    · rcases List.mem_cons.mp hb with rfl | hb'
      · exact Or.inl ⟨a, ha', hov'⟩
      · exact Or.inr (ih ha' hb')

/-- C9: whenever two distinct devices of the list occupy the same unit on the
same face, the elevation builder reports `LayoutConflict` (surfacing the
inconsistency, never resolving or mutating anything — it is a pure
projection); and two devices on opposite faces sharing the same units are not
a conflict: a height-2 front device and a height-1 rear device both at unit 1
of a 4-unit rack build to front `[occupied, occupied, empty, empty]` and rear
`[occupied, empty, empty, empty]`. -/
theorem buildElevation_conflict (height : Nat) (devices : List Device) (f : Face)
    (a b : Device) (u : Nat) (ha : a ∈ devices) (hb : b ∈ devices) (hne : a ≠ b)
    (hoa : occupiesUnit a f u = true) (hob : occupiesUnit b f u = true) :
    buildElevation height devices f = Except.error LayoutErr.layoutConflict ∧
    (buildElevation 4 [c9Front, c9Rear] Face.front =
        Except.ok [some 21, some 21, none, none] ∧
      buildElevation 4 [c9Front, c9Rear] Face.rear =
        Except.ok [some 22, none, none, none]) := by
  refine ⟨?_, rfl, rfl⟩
  unfold buildElevation
  rw [if_pos (mem_pairsConflict (occupies_both_overlaps hoa hob)
    (occupies_both_overlaps hob hoa) hne ha hb)]

theorem buildElevation_conflict_witness :
    buildElevation 4 [c9Front, c9FrontClash] Face.front =
      Except.error LayoutErr.layoutConflict :=
  (buildElevation_conflict 4 [c9Front, c9FrontClash] Face.front c9Front c9FrontClash 2
    (by decide) (by decide) (by decide) (by decide) (by decide)).1

end Netbox
